import Mathlib

/-!
Verification of the contour-classification core of the product-photo → SVG
pipeline (src/src/image_processor.py).

The OpenCV layer (boundary tracing, moments, convex hulls) produces, for each
traced contour, a record of integer/float descriptors; the classification,
shape-inference, corner-radius and shadow stages are pure arithmetic on those
descriptors plus grayscale pixel lookups.  We embed those stages shallowly:

* a traced contour's descriptor record becomes `RegionInfo` (the dict built at
  image_processor.py lines 463-477; floats become exact rationals `ℚ`);
* the classification pass of `detect_all_contours` (lines 479-604) becomes
  `detect_all_contours : List RegionInfo → List ClassifiedRegion`;
* `classify_shape` (lines 606-678), `detect_corner_radius` (lines 680-783) and
  `detect_shadow` (lines 785-941) become functions over `RegionInfo`, contour
  point lists and a grayscale image `ℤ → ℤ → ℕ`.

Python's `int(x)` truncates toward zero (`pyInt`), `x // y` on nonnegative
integers is `Nat` division, and `round(x, 2)` is embedded as exact rational
rounding to two decimal places (`round2`).

Rational arithmetic is written with `Rat.divInt` and the helpers
`qadd`/`qsub`/`qmul`/`qdiv` (proved equal to the field operations of `ℚ`
below), so that every definition evaluates inside the kernel; decimal
constants of the source appear as `Rat.divInt` literals, e.g. `0.85` is
`Rat.divInt 85 100`.
-/

/-- Rational addition, written so that the kernel can evaluate it. -/
def qadd (a b : ℚ) : ℚ := Rat.divInt (a.num * b.den + b.num * a.den) (a.den * b.den)

/-- Rational subtraction, written so that the kernel can evaluate it. -/
def qsub (a b : ℚ) : ℚ := Rat.divInt (a.num * b.den - b.num * a.den) (a.den * b.den)

/-- Rational multiplication, written so that the kernel can evaluate it. -/
def qmul (a b : ℚ) : ℚ := Rat.divInt (a.num * b.num) (a.den * b.den)

/-- Rational division, written so that the kernel can evaluate it. -/
def qdiv (a b : ℚ) : ℚ := Rat.divInt (a.num * b.den) (a.den * b.num)

theorem qadd_eq_add (a b : ℚ) : qadd a b = a + b := by
  have hda : (a.den : ℤ) ≠ 0 := by exact_mod_cast a.den_nz
  have hdb : (b.den : ℤ) ≠ 0 := by exact_mod_cast b.den_nz
  unfold qadd
  rw [← Rat.divInt_add_divInt _ _ hda hdb, Rat.num_divInt_den, Rat.num_divInt_den]

theorem qsub_eq_sub (a b : ℚ) : qsub a b = a - b := by
  have hda : (a.den : ℤ) ≠ 0 := by exact_mod_cast a.den_nz
  have hdb : (b.den : ℤ) ≠ 0 := by exact_mod_cast b.den_nz
  unfold qsub
  rw [← Rat.divInt_sub_divInt _ _ hda hdb, Rat.num_divInt_den, Rat.num_divInt_den]

theorem qmul_eq_mul (a b : ℚ) : qmul a b = a * b := by
  unfold qmul
  rw [← Rat.divInt_mul_divInt', Rat.num_divInt_den, Rat.num_divInt_den]

theorem qdiv_eq_div (a b : ℚ) : qdiv a b = a / b := by
  unfold qdiv
  rw [← Rat.divInt_div_divInt, Rat.num_divInt_den, Rat.num_divInt_den]

/-- Truncation toward zero, the behaviour of Python's `int(...)` on a float. -/
def pyInt (q : ℚ) : ℤ := if 0 ≤ q then ⌊q⌋ else ⌈q⌉

/-- Rounding to the nearest integer, halves up (Python's `round` on exact
halves rounds to even, but no computation below lands on an exact half). -/
def pyRound (q : ℚ) : ℤ :=
  if Rat.divInt 1 2 ≤ qsub q (⌊q⌋ : ℤ) then ⌊q⌋ + 1 else ⌊q⌋

/-- Rounding to two decimal places, the behaviour of Python's `round(x, 2)`
(idealised to exact rational arithmetic). -/
def round2 (q : ℚ) : ℚ := Rat.divInt (pyRound (qmul q 100)) 100

/-- The float value of `np.pi` used by the source when computing circularity. -/
def npPi : ℚ := Rat.divInt 3141592653589793 1000000000000000

/-- Sum of a list of rationals via `qadd`. -/
def qsum (l : List ℚ) : ℚ := l.foldr qadd 0

theorem qsum_eq_sum (l : List ℚ) : qsum l = l.sum := by
  induction l with
  | nil => rfl
  | cons a t ih =>
      unfold qsum at ih ⊢
      rw [List.foldr_cons, qadd_eq_add, ih, List.sum_cons]

/-- Arithmetic mean of a list of rationals (used only on nonempty lists). -/
def qmean (l : List ℚ) : ℚ := qdiv (qsum l) ((l.length : ℕ) : ℚ)

/-- The mean of a list of brightness samples (naturals), with a default for
the empty list — the `np.mean(samples) if len(samples) > 0 else default`
pattern of `detect_shadow`. -/
def natMean (l : List ℕ) (dflt : ℚ) : ℚ :=
  if l.isEmpty then dflt else Rat.divInt (l.sum : ℕ) (l.length : ℕ)

/-- Descriptor record of one traced contour, as assembled by
`detect_all_contours` (image_processor.py lines 463-477) together with the
contour-derived observables that `classify_shape` later extracts from the raw
point list (approximated vertex count at 4% tolerance, re-computed contour
area, convex-hull index count, contour point count, convexity-defect count —
`defects = none` models `cv2.convexityDefects` raising or returning `None`).
`area` is the `int(...)`-truncated contour area, `aspectR`/`extent`/
`circularity`/`convexity` the two-decimal rounded derived ratios, `centerY`
the centroid y (`cy`), `contourId` the index in the traced-contour list
(distinct across a detection run). -/
structure RegionInfo where
  contourId : ℕ
  area : ℤ
  x : ℕ
  y : ℕ
  w : ℕ
  h : ℕ
  aspectR : ℚ
  extent : ℚ
  circularity : ℚ
  convexity : ℚ
  centerY : ℤ
  approxVerts : ℕ
  shapeArea : ℚ
  hullSize : ℕ
  contourLen : ℕ
  defects : Option ℕ
deriving DecidableEq, Repr

/-- Semantic role assigned by the classifier: the values taken by the
`'type'` field of a contour dict ('unknown', 'body', 'small_dot',
'circle_control', 'button'). -/
inductive RegionType where
  | unknown
  | body
  | small_dot
  | circle_control
  | button
deriving DecidableEq, Repr

/-- A region together with its assigned role. -/
structure ClassifiedRegion where
  info : RegionInfo
  type : RegionType
deriving DecidableEq, Repr

/-- Descending-by-area comparison used by
`all_contours.sort(key=lambda c: c['area'], reverse=True)`. -/
def areaGE (a b : RegionInfo) : Prop := b.area ≤ a.area

instance : DecidableRel areaGE := fun a b => inferInstanceAs (Decidable (b.area ≤ a.area))

instance : IsTotal RegionInfo areaGE := ⟨fun a b => le_total b.area a.area⟩

instance : IsTrans RegionInfo areaGE := ⟨fun _ _ _ hab hbc => le_trans hbc hab⟩

/-- Stable descending sort by area.  Python's `list.sort` is stable; with the
non-strict relation `areaGE`, `List.insertionSort` places each element before
the equal-area elements that followed it, reproducing the stable descending
order. -/
def sortAreaDesc (l : List RegionInfo) : List RegionInfo := List.insertionSort areaGE l

/-- The circularity test of lines 496-500:
`0.6 <= aspect_ratio <= 1.4 and circularity > 0.4 and convexity > 0.75`. -/
def isCircular (c : RegionInfo) : Bool :=
  decide (Rat.divInt 6 10 ≤ c.aspectR) && decide (c.aspectR ≤ Rat.divInt 14 10) &&
    decide (Rat.divInt 4 10 < c.circularity) && decide (Rat.divInt 75 100 < c.convexity)

/-- The area-descending sorted contour list (line 482). -/
def sortedRegions (l : List RegionInfo) : List RegionInfo := sortAreaDesc l

/-- The contour assigned `'body'`: the head of the area-descending sort
(lines 483-485). -/
def bodyOf (l : List RegionInfo) : Option RegionInfo := (sortedRegions l).head?

/-- The contours scanned by the circular-feature loop: `all_contours[1:]`
(line 491). -/
def restOf (l : List RegionInfo) : List RegionInfo := (sortedRegions l).tail

/-- The `small_dots` list (lines 502-508): circular contours of area < 500,
in scan order. -/
def dotCandidates (l : List RegionInfo) : List RegionInfo :=
  (restOf l).filter fun c => isCircular c && decide (c.area < 500)

/-- The `circular_regions` list (lines 509-512): circular contours of
area ≥ 500, in scan order. -/
def discCandidates (l : List RegionInfo) : List RegionInfo :=
  (restOf l).filter fun c => isCircular c && !decide (c.area < 500)

/-- The contour assigned `'circle_control'`: head of the area-descending sort
of `circular_regions` (lines 515-521). -/
def controlOf (l : List RegionInfo) : Option RegionInfo :=
  (sortAreaDesc (discCandidates l)).head?

/-- The contours assigned `'button'`: `circular_regions[1:]` (line 562).
The source then sorts this list by `center_y`, but only to number the
buttons in log output (lines 563-567); membership, and hence the assigned
types, are unaffected, and the returned `all_contours` order is not. -/
def buttonsOf (l : List RegionInfo) : List RegionInfo :=
  (sortAreaDesc (discCandidates l)).tail

/-- The small-dot retention test of lines 537-554, for dot `d` against the
body and circle-control bounding boxes.  The source compares the Euclidean
distance `sqrt(dist2)` with `circle_radius * 1.2`; both sides being
nonnegative, this is equivalent to `25 * dist2 < 36 * r²`, which avoids the
irrational square root.  `is_near_edge` checks only the left/right body
edges (threshold 15 px, lines 547-550). -/
def keepDot (body ctrl d : RegionInfo) : Bool :=
  let ccx : ℤ := ((ctrl.x + ctrl.w / 2 : ℕ) : ℤ)
  let ccy : ℤ := ((ctrl.y + ctrl.h / 2 : ℕ) : ℤ)
  let r : ℤ := ((max ctrl.w ctrl.h / 2 : ℕ) : ℤ)
  let dcx : ℤ := ((d.x + d.w / 2 : ℕ) : ℤ)
  let dcy : ℤ := ((d.y + d.h / 2 : ℕ) : ℤ)
  let dist2 : ℤ := (dcx - ccx) ^ 2 + (dcy - ccy) ^ 2
  let nearEdge : Bool :=
    decide (dcx < (body.x : ℤ) + 15) || decide ((body.x : ℤ) + (body.w : ℤ) - 15 < dcx)
  decide (25 * dist2 < 36 * r ^ 2) && !nearEdge

/-- The dots that keep `'small_dot'` (lines 536-559): when a circle control
exists they are filtered by `keepDot`, otherwise the filtering block is
skipped and every dot candidate keeps its type. -/
def keptDots (l : List RegionInfo) : List RegionInfo :=
  match bodyOf l, controlOf l with
  | some b, some ctrl => (dotCandidates l).filter fun d => keepDot b ctrl d
  | _, _ => dotCandidates l

/-- Contour ids of a region list. -/
def idsOf (l : List RegionInfo) : List ℕ := l.map fun c => c.contourId

/-- The final value of a contour's `'type'` field after the classification
pass, given the body contour `b`.  The source mutates dict fields through
shared references; with the (distinct) `contour_id` values this is
equivalent to looking the contour up in the id sets of the classified
groups. -/
def typeAssignWith (l : List RegionInfo) (b c : RegionInfo) : RegionType :=
  if c.contourId = b.contourId then RegionType.body
  else if c.contourId ∈ idsOf (controlOf l).toList then RegionType.circle_control
  else if c.contourId ∈ idsOf (buttonsOf l) then RegionType.button
  else if c.contourId ∈ idsOf (keptDots l) then RegionType.small_dot
  else RegionType.unknown

/-- The final value of a contour's `'type'` field after the classification
pass (no contour is classified when the list is empty). -/
def typeAssign (l : List RegionInfo) (c : RegionInfo) : RegionType :=
  match bodyOf l with
  | none => RegionType.unknown
  | some b => typeAssignWith l b c

/-- The classification pass of `detect_all_contours` (lines 479-604): the
area-descending contour list with types assigned, with unclassified contours
filtered out (line 570).  Shape and shadow annotation are added downstream
by `detect_all_contours_full`. -/
def detect_all_contours (l : List RegionInfo) : List ClassifiedRegion :=
  ((sortedRegions l).map fun c => { info := c, type := typeAssign l c }).filter
    fun r => decide (r.type ≠ RegionType.unknown)

theorem sortAreaDesc_perm (l : List RegionInfo) : (sortAreaDesc l).Perm l :=
  List.perm_insertionSort areaGE l

theorem sortAreaDesc_sorted (l : List RegionInfo) : List.Sorted areaGE (sortAreaDesc l) :=
  List.sorted_insertionSort areaGE l

theorem mem_sortedRegions {a : RegionInfo} {l : List RegionInfo} :
    a ∈ sortedRegions l ↔ a ∈ l :=
  (sortAreaDesc_perm l).mem_iff

theorem idsOf_sortedRegions_nodup {l : List RegionInfo} (h : (idsOf l).Nodup) :
    (idsOf (sortedRegions l)).Nodup := by
  unfold idsOf at h ⊢
  exact ((sortAreaDesc_perm l).map fun c => c.contourId).symm.nodup h

theorem restOf_subset (l : List RegionInfo) : ∀ a ∈ restOf l, a ∈ l := by
  intro a ha
  exact mem_sortedRegions.mp (List.mem_of_mem_tail ha)

theorem dotCandidates_subset (l : List RegionInfo) : ∀ a ∈ dotCandidates l, a ∈ l :=
  fun a ha => restOf_subset l a (List.mem_of_mem_filter ha)

theorem discCandidates_subset (l : List RegionInfo) : ∀ a ∈ discCandidates l, a ∈ l :=
  fun a ha => restOf_subset l a (List.mem_of_mem_filter ha)

theorem controlOf_mem_disc {l : List RegionInfo} {ctrl : RegionInfo}
    (h : controlOf l = some ctrl) : ctrl ∈ discCandidates l := by
  unfold controlOf at h
  exact (sortAreaDesc_perm (discCandidates l)).mem_iff.mp (List.mem_of_mem_head? h)

theorem buttonsOf_subset_disc (l : List RegionInfo) :
    ∀ a ∈ buttonsOf l, a ∈ discCandidates l := by
  intro a ha
  exact (sortAreaDesc_perm (discCandidates l)).mem_iff.mp (List.mem_of_mem_tail ha)

theorem bodyOf_mem {l : List RegionInfo} {b : RegionInfo} (h : bodyOf l = some b) :
    b ∈ l :=
  mem_sortedRegions.mp (List.mem_of_mem_head? h)

/-- The body is a maximum-area element: every contour's area is bounded by the
area of the head of the descending sort. -/
theorem bodyOf_area_max {l : List RegionInfo} {b : RegionInfo} (h : bodyOf l = some b) :
    ∀ a ∈ l, a.area ≤ b.area := by
  intro a ha
  have hmem : a ∈ sortedRegions l := mem_sortedRegions.mpr ha
  have hsorted : List.Sorted areaGE (sortedRegions l) := sortAreaDesc_sorted l
  unfold bodyOf at h
  rcases hs : sortedRegions l with _ | ⟨x, rest⟩
  · rw [hs] at hmem
    exact absurd hmem (List.not_mem_nil a)
  · rw [hs] at h hmem hsorted
    simp only [List.head?_cons, Option.some.injEq] at h
    subst h
    rcases List.mem_cons.mp hmem with rfl | hmem'
    · exact le_refl _
    · exact (List.sorted_cons.mp hsorted).1 a hmem'

/-- Membership characterisation of the classified output list. -/
theorem mem_detect_all_contours {l : List RegionInfo} {c : RegionInfo} {t : RegionType} :
    (⟨c, t⟩ : ClassifiedRegion) ∈ detect_all_contours l ↔
      c ∈ l ∧ typeAssign l c = t ∧ t ≠ RegionType.unknown := by
  unfold detect_all_contours
  rw [List.mem_filter, List.mem_map]
  constructor
  · rintro ⟨⟨a, ha, heq⟩, hne⟩
    obtain ⟨rfl, rfl⟩ : a = c ∧ typeAssign l a = t := by
      constructor
      · exact congrArg ClassifiedRegion.info heq
      · exact congrArg ClassifiedRegion.type heq
    refine ⟨mem_sortedRegions.mp ha, rfl, ?_⟩
    simpa using hne
  · rintro ⟨hc, ht, hne⟩
    exact ⟨⟨c, mem_sortedRegions.mpr hc, by rw [ht]⟩, by simpa using hne⟩

theorem detect_all_contours_shape {l : List RegionInfo} {e : ClassifiedRegion}
    (he : e ∈ detect_all_contours l) :
    e.info ∈ l ∧ typeAssign l e.info = e.type ∧ e.type ≠ RegionType.unknown := by
  rcases e with ⟨c, t⟩
  exact mem_detect_all_contours.mp he

theorem typeAssign_of_body {l : List RegionInfo} {b : RegionInfo} (hb : bodyOf l = some b)
    (c : RegionInfo) : typeAssign l c = typeAssignWith l b c := by
  unfold typeAssign
  rw [hb]

theorem typeAssign_body {l : List RegionInfo} {b : RegionInfo} (hb : bodyOf l = some b) :
    typeAssign l b = RegionType.body := by
  rw [typeAssign_of_body hb]
  unfold typeAssignWith
  simp

theorem typeAssignWith_eq_body_iff {l : List RegionInfo} {b c : RegionInfo} :
    typeAssignWith l b c = RegionType.body ↔ c.contourId = b.contourId := by
  unfold typeAssignWith
  split_ifs with h1 h2 h3 h4 <;> simp [h1]

theorem id_inj {l : List RegionInfo} (hnd : (idsOf l).Nodup) {a b : RegionInfo}
    (ha : a ∈ l) (hb : b ∈ l) (h : a.contourId = b.contourId) : a = b := by
  unfold idsOf at hnd
  exact List.inj_on_of_nodup_map hnd ha hb h

theorem head_id_not_in_tail {l : List RegionInfo} (hnd : (idsOf l).Nodup) {b : RegionInfo}
    (hb : bodyOf l = some b) : ∀ c ∈ restOf l, c.contourId ≠ b.contourId := by
  intro c hc
  have hnd' := idsOf_sortedRegions_nodup hnd
  unfold bodyOf at hb
  unfold restOf at hc
  rcases hs : sortedRegions l with _ | ⟨x, rest⟩
  · rw [hs] at hc
    exact absurd hc (List.not_mem_nil c)
  · rw [hs] at hb hc hnd'
    simp only [List.head?_cons, Option.some.injEq] at hb
    subst hb
    simp only [List.tail_cons] at hc
    unfold idsOf at hnd'
    rw [List.map_cons] at hnd'
    have hni := (List.nodup_cons.mp hnd').1
    intro heq
    exact hni (heq ▸ List.mem_map_of_mem (fun r => r.contourId) hc)

theorem dot_ne_disc {l : List RegionInfo} {d e : RegionInfo} (hd : d ∈ dotCandidates l)
    (he : e ∈ discCandidates l) : d ≠ e := by
  intro heq
  subst heq
  have h1 := (List.mem_filter.mp hd).2
  have h2 := (List.mem_filter.mp he).2
  simp only [Bool.and_eq_true, Bool.not_eq_true'] at h1 h2
  rw [h1.2] at h2
  exact absurd h2.2 (by simp)

theorem keptDots_eq_filter {l : List RegionInfo} {b ctrl : RegionInfo}
    (hb : bodyOf l = some b) (hc : controlOf l = some ctrl) :
    keptDots l = (dotCandidates l).filter fun d => keepDot b ctrl d := by
  unfold keptDots
  rw [hb, hc]

theorem keptDots_of_no_control {l : List RegionInfo} (hc : controlOf l = none) :
    keptDots l = dotCandidates l := by
  unfold keptDots
  rw [hc]
  rcases bodyOf l with _ | b <;> rfl

/-- Under distinct contour ids, the role a dot candidate ends with is
`small_dot` exactly when the retention test passes, `unknown` otherwise. -/
theorem typeAssign_dot {l : List RegionInfo} (hnd : (idsOf l).Nodup) {b ctrl d : RegionInfo}
    (hb : bodyOf l = some b) (hc : controlOf l = some ctrl) (hd : d ∈ dotCandidates l) :
    typeAssign l d =
      (if keepDot b ctrl d then RegionType.small_dot else RegionType.unknown) := by
  rw [typeAssign_of_body hb]
  unfold typeAssignWith
  have hdl : d ∈ l := dotCandidates_subset l d hd
  have h1 : d.contourId ≠ b.contourId :=
    head_id_not_in_tail hnd hb d (List.mem_of_mem_filter hd)
  have h2 : d.contourId ∉ idsOf (controlOf l).toList := by
    rw [hc]
    intro hmem
    unfold idsOf at hmem
    simp only [Option.toList_some, List.map_cons, List.map_nil, List.mem_singleton] at hmem
    have : d = ctrl := id_inj hnd hdl (discCandidates_subset l ctrl (controlOf_mem_disc hc)) hmem
    exact dot_ne_disc hd (controlOf_mem_disc hc) this
  have h3 : d.contourId ∉ idsOf (buttonsOf l) := by
    intro hmem
    unfold idsOf at hmem
    rcases List.mem_map.mp hmem with ⟨a, hamem, haid⟩
    have hadisc : a ∈ discCandidates l := buttonsOf_subset_disc l a hamem
    have : d = a := id_inj hnd hdl (discCandidates_subset l a hadisc) haid.symm
    exact dot_ne_disc hd hadisc this
  have h4 : d.contourId ∈ idsOf (keptDots l) ↔ keepDot b ctrl d = true := by
    rw [keptDots_eq_filter hb hc]
    constructor
    · intro hmem
      unfold idsOf at hmem
      rcases List.mem_map.mp hmem with ⟨a, hamem, haid⟩
      have hadot : a ∈ dotCandidates l := List.mem_of_mem_filter hamem
      have : d = a := id_inj hnd hdl (dotCandidates_subset l a hadot) haid.symm
      subst this
      exact (List.mem_filter.mp hamem).2
    · intro hkeep
      unfold idsOf
      exact List.mem_map_of_mem (fun r => r.contourId) (List.mem_filter.mpr ⟨hd, hkeep⟩)
  rw [if_neg h1, if_neg h2, if_neg h3]
  by_cases hk : keepDot b ctrl d
  · rw [if_pos (h4.mpr hk), if_pos hk]
  · rw [if_neg (fun hmem => hk (h4.mp hmem)), if_neg hk]


/-- The retention rule as the specification states it (§4.3 step 4): the
Euclidean distance from the dot's bounding-box centre to the CircleControl's
bounding-box centre is less than 1.2 times the CircleControl radius (half of
`max(width, height)`, the floor halving of the integer pixel size), and the
dot's horizontal centre is at least 15 px away from both the Body's left and
right bounding-box edges.  The comparison of two nonnegative quantities is
stated squared, which eliminates the irrational square root. -/
def keepDotSpec (body ctrl d : RegionInfo) : Prop :=
  (((((d.x + d.w / 2 : ℕ) : ℤ) - ((ctrl.x + ctrl.w / 2 : ℕ) : ℤ)) ^ 2 +
      (((d.y + d.h / 2 : ℕ) : ℤ) - ((ctrl.y + ctrl.h / 2 : ℕ) : ℤ)) ^ 2 : ℤ) : ℚ) <
      (qmul (Rat.divInt 12 10) ((max ctrl.w ctrl.h / 2 : ℕ) : ℚ)) ^ 2 ∧
    15 ≤ ((d.x + d.w / 2 : ℕ) : ℤ) - (body.x : ℤ) ∧
    15 ≤ (body.x : ℤ) + (body.w : ℤ) - ((d.x + d.w / 2 : ℕ) : ℤ)

/-- Squared form of the 1.2-radius distance test: the integer comparison the
embedding computes agrees with the rational comparison of the specification. -/
theorem dist_lt_iff (dist2 : ℤ) (r : ℕ) :
    25 * dist2 < 36 * (r : ℤ) ^ 2 ↔
      (dist2 : ℚ) < (qmul (Rat.divInt 12 10) (r : ℚ)) ^ 2 := by
  rw [qmul_eq_mul, Rat.divInt_eq_div]
  push_cast
  rw [div_mul_eq_mul_div, div_pow, lt_div_iff₀ (by norm_num : (0 : ℚ) < 10 ^ 2)]
  have h : (dist2 : ℚ) * 10 ^ 2 < ((12 : ℚ) * (r : ℚ)) ^ 2 ↔
      ((100 * dist2 : ℤ) : ℚ) < ((144 * (r : ℤ) ^ 2 : ℤ) : ℚ) := by
    push_cast
    constructor <;> intro h <;> nlinarith
  rw [h, Int.cast_lt]
  omega

/-- The boolean retention test of the source agrees with the specification's
statement of the rule. -/
theorem keepDot_iff_spec (body ctrl d : RegionInfo) :
    keepDot body ctrl d = true ↔ keepDotSpec body ctrl d := by
  simp only [keepDot, keepDotSpec, Bool.and_eq_true, Bool.not_eq_true', Bool.or_eq_false_iff,
    decide_eq_true_eq, decide_eq_false_iff_not, not_lt]
  rw [← dist_lt_iff]
  constructor
  · rintro ⟨h1, h2, h3⟩
    exact ⟨h1, by omega, by omega⟩
  · rintro ⟨h1, h2, h3⟩
    exact ⟨h1, by omega, by omega⟩

/-- C1: whenever the list returned by `detect_all_contours` is non-empty,
exactly one region in it carries role `'body'` (the head of the
area-descending sort), and that region is a maximum-area element of the
list. -/
theorem claim_C1_body_unique (l : List RegionInfo) (hnd : (idsOf l).Nodup)
    (hne : detect_all_contours l ≠ []) :
    ∃ b, bodyOf l = some b ∧
      (detect_all_contours l).filter (fun r => decide (r.type = RegionType.body)) =
        [{ info := b, type := RegionType.body }] ∧
      ∀ e ∈ detect_all_contours l, e.info.area ≤ b.area := by
  rcases hs : sortedRegions l with _ | ⟨x, rest⟩
  · exfalso
    apply hne
    unfold detect_all_contours
    rw [hs]
    rfl
  · have hb : bodyOf l = some x := by
      unfold bodyOf
      rw [hs]
      rfl
    have hx : typeAssign l x = RegionType.body := typeAssign_body hb
    refine ⟨x, hb, ?_, ?_⟩
    · unfold detect_all_contours
      rw [List.filter_filter, hs, List.map_cons,
        List.filter_cons_of_pos (by simp [hx])]
      have htl :
          (List.map (fun c => ({ info := c, type := typeAssign l c } : ClassifiedRegion)) rest
            |>.filter fun r =>
              decide (r.type = RegionType.body) && decide (r.type ≠ RegionType.unknown)) =
            [] := by
        rw [List.filter_eq_nil_iff]
        rintro r hr
        rcases List.mem_map.mp hr with ⟨c, hc, rfl⟩
        have hcne : typeAssign l c ≠ RegionType.body := by
          rw [typeAssign_of_body hb, Ne, typeAssignWith_eq_body_iff]
          exact head_id_not_in_tail hnd hb c (by unfold restOf; rw [hs]; simpa using hc)
        simp [hcne]
      rw [htl, hx]
    · intro e he
      exact bodyOf_area_max hb e.info (detect_all_contours_shape he).1

/-- Helper to build a concrete contour record for test inputs (the shape
observables are fixed at values of no consequence to the classification
stage). -/
def mkReg (i : ℕ) (ar : ℤ) (x y w h : ℕ) (asp circ conv ext : ℚ) (cy : ℤ) : RegionInfo :=
  { contourId := i, area := ar, x := x, y := y, w := w, h := h,
    aspectR := asp, extent := ext, circularity := circ, convexity := conv,
    centerY := cy, approxVerts := 8, shapeArea := (ar : ℚ), hullSize := 12,
    contourLen := 40, defects := none }

/-- Witness input for C1: one rectangular product contour. -/
def c1WitList : List RegionInfo :=
  [mkReg 0 45000 0 0 200 300 (Rat.divInt 67 100) (Rat.divInt 1 2) (Rat.divInt 9 10)
    (Rat.divInt 3 4) 150]

/-- Witness for C1 at the concrete single-contour input. -/
theorem claim_C1_witness :
    ∃ b, bodyOf c1WitList = some b ∧
      (detect_all_contours c1WitList).filter (fun r => decide (r.type = RegionType.body)) =
        [{ info := b, type := RegionType.body }] ∧
      ∀ e ∈ detect_all_contours c1WitList, e.info.area ≤ b.area :=
  claim_C1_body_unique c1WitList (by decide) (by decide)

/-- Counterexample input for C2: a body, a circle control (area 2000), and
two buttons whose area order (900 above 600) is opposite to their
top-to-bottom order (centre y 197 above 104).  The returned list keeps the
area-descending order, so the buttons appear with centre ys 197, 104. -/
def c2CexList : List RegionInfo :=
  [ mkReg 0 45000 0 0 200 300 (Rat.divInt 67 100) (Rat.divInt 1 2) (Rat.divInt 9 10)
      (Rat.divInt 3 4) 150,
    mkReg 1 2000 50 40 50 50 1 (Rat.divInt 9 10) (Rat.divInt 95 100) (Rat.divInt 78 100) 65,
    mkReg 2 900 80 180 34 34 1 (Rat.divInt 88 100) (Rat.divInt 95 100) (Rat.divInt 78 100) 197,
    mkReg 3 600 80 90 28 28 1 (Rat.divInt 88 100) (Rat.divInt 95 100) (Rat.divInt 78 100) 104 ]

/-- C2 as stated is false: at `c2CexList` the buttons appear in the returned
list in decreasing centre-y order (197 before 104), because the output keeps
the area-descending order and the centre-y sort touches only a temporary
list used for log numbering. -/
theorem claim_C2_counterexample :
    ¬ List.Pairwise (fun a b : ClassifiedRegion => a.info.centerY ≤ b.info.centerY)
      ((detect_all_contours c2CexList).filter fun r =>
        decide (r.type = RegionType.button)) := by
  decide

/-- C2 amended: the returned list of `detect_all_contours` is ordered by
non-increasing area — in particular the buttons appear in non-increasing
area order, not sorted by centre y. -/
theorem claim_C2_button_order (l : List RegionInfo) :
    List.Pairwise (fun a b : ClassifiedRegion => b.info.area ≤ a.info.area)
      (detect_all_contours l) ∧
    List.Pairwise (fun a b : ClassifiedRegion => b.info.area ≤ a.info.area)
      ((detect_all_contours l).filter fun r => decide (r.type = RegionType.button)) := by
  have hsorted : List.Pairwise areaGE (sortedRegions l) := sortAreaDesc_sorted l
  have hmap : List.Pairwise (fun a b : ClassifiedRegion => b.info.area ≤ a.info.area)
      ((sortedRegions l).map fun c => { info := c, type := typeAssign l c }) :=
    List.Pairwise.map _ (fun a b hab => hab) hsorted
  have h1 : List.Pairwise (fun a b : ClassifiedRegion => b.info.area ≤ a.info.area)
      (detect_all_contours l) := by
    unfold detect_all_contours
    exact hmap.sublist (List.filter_sublist _)
  exact ⟨h1, h1.sublist (List.filter_sublist _)⟩

/-- C3: when a circle control is assigned, a dot candidate appears in the
output with role `'small_dot'` exactly when the retention rule
`keepDotSpec` holds (distance to the control centre below 1.2 radii, and
horizontal centre at least 15 px from both vertical body edges); a rejected
dot candidate is absent from the returned list altogether. -/
theorem claim_C3_dot_retention (l : List RegionInfo) (hnd : (idsOf l).Nodup)
    (b ctrl d : RegionInfo) (hb : bodyOf l = some b) (hc : controlOf l = some ctrl)
    (hd : d ∈ dotCandidates l) :
    (((⟨d, RegionType.small_dot⟩ : ClassifiedRegion) ∈ detect_all_contours l) ↔
      keepDotSpec b ctrl d) ∧
    (¬ keepDotSpec b ctrl d → ∀ e ∈ detect_all_contours l, e.info ≠ d) := by
  have hta := typeAssign_dot hnd hb hc hd
  have hdl : d ∈ l := dotCandidates_subset l d hd
  constructor
  · rw [mem_detect_all_contours]
    constructor
    · rintro ⟨-, ht, -⟩
      rw [hta] at ht
      by_cases hk : keepDot b ctrl d
      · exact (keepDot_iff_spec b ctrl d).mp hk
      · rw [if_neg hk] at ht
        exact absurd ht (by simp)
    · intro hspec
      have hk := (keepDot_iff_spec b ctrl d).mpr hspec
      refine ⟨hdl, ?_, by simp⟩
      rw [hta, if_pos hk]
  · intro hspec e he heq
    obtain ⟨hel, het, hne⟩ := detect_all_contours_shape he
    rw [heq, hta] at het
    have hk : ¬ keepDot b ctrl d = true := fun hk =>
      hspec ((keepDot_iff_spec b ctrl d).mp hk)
    rw [if_neg hk] at het
    exact hne het.symm

/-- Witness input for C3: body, circle control, and one dot candidate that
passes the retention rule. -/
def c3Body : RegionInfo :=
  mkReg 0 45000 0 0 200 300 (Rat.divInt 67 100) (Rat.divInt 1 2) (Rat.divInt 9 10)
    (Rat.divInt 3 4) 150

/-- The circle-control contour of the C3 witness input. -/
def c3Ctrl : RegionInfo :=
  mkReg 1 2500 80 100 60 60 1 (Rat.divInt 9 10) (Rat.divInt 9 10) (Rat.divInt 78 100) 130

/-- The dot-candidate contour of the C3 witness input. -/
def c3Dot : RegionInfo :=
  mkReg 2 80 100 140 10 10 1 (Rat.divInt 88 100) (Rat.divInt 9 10) (Rat.divInt 8 10) 145

/-- The C3 witness input list. -/
def c3WitList : List RegionInfo := [c3Body, c3Ctrl, c3Dot]

/-- Witness for C3 at the concrete input. -/
theorem claim_C3_witness :
    (((⟨c3Dot, RegionType.small_dot⟩ : ClassifiedRegion) ∈
        detect_all_contours c3WitList) ↔ keepDotSpec c3Body c3Ctrl c3Dot) ∧
    (¬ keepDotSpec c3Body c3Ctrl c3Dot →
      ∀ e ∈ detect_all_contours c3WitList, e.info ≠ c3Dot) :=
  claim_C3_dot_retention c3WitList (by decide) c3Body c3Ctrl c3Dot (by decide) (by decide)
    (by decide)

theorem typeAssignWith_ne_control {l : List RegionInfo} {b c : RegionInfo}
    (hc : controlOf l = none) :
    typeAssignWith l b c ≠ RegionType.circle_control := by
  unfold typeAssignWith
  rw [hc]
  split_ifs with h1 h2 h3 h4 <;> simp_all [idsOf]

/-- C10: when dot candidates exist but no disc candidate does, no region is
assigned `'circle_control'` and every dot candidate is retained in the
returned list with role `'small_dot'` — the distance/edge filtering block is
skipped entirely. -/
theorem claim_C10_dots_without_control (l : List RegionInfo) (hnd : (idsOf l).Nodup)
    (hdot : dotCandidates l ≠ []) (hdisc : discCandidates l = []) :
    (∀ e ∈ detect_all_contours l, e.type ≠ RegionType.circle_control) ∧
    ∀ d ∈ dotCandidates l,
      (⟨d, RegionType.small_dot⟩ : ClassifiedRegion) ∈ detect_all_contours l := by
  have hc : controlOf l = none := by
    unfold controlOf
    rw [hdisc]
    rfl
  have hbody : ∃ b, bodyOf l = some b := by
    have hrest : restOf l ≠ [] := by
      intro h
      apply hdot
      unfold dotCandidates
      rw [h]
      rfl
    unfold restOf at hrest
    unfold bodyOf
    rcases hs : sortedRegions l with _ | ⟨x, rest⟩
    · rw [hs] at hrest
      exact absurd rfl hrest
    · exact ⟨x, rfl⟩
  obtain ⟨b, hb⟩ := hbody
  have hkept : keptDots l = dotCandidates l := keptDots_of_no_control hc
  constructor
  · intro e he habs
    obtain ⟨hel, het, hne⟩ := detect_all_contours_shape he
    rw [typeAssign_of_body hb] at het
    rw [habs] at het
    exact typeAssignWith_ne_control hc het
  · intro d hd
    rw [mem_detect_all_contours]
    refine ⟨dotCandidates_subset l d hd, ?_, by simp⟩
    rw [typeAssign_of_body hb]
    unfold typeAssignWith
    have h1 : d.contourId ≠ b.contourId :=
      head_id_not_in_tail hnd hb d (List.mem_of_mem_filter hd)
    have h2 : d.contourId ∉ idsOf (controlOf l).toList := by
      rw [hc]
      simp [idsOf]
    have h3 : d.contourId ∉ idsOf (buttonsOf l) := by
      unfold buttonsOf
      rw [hdisc]
      simp [sortAreaDesc, idsOf]
    have h4 : d.contourId ∈ idsOf (keptDots l) := by
      rw [hkept]
      exact List.mem_map_of_mem (fun r => r.contourId) hd
    rw [if_neg h1, if_neg h2, if_neg h3, if_pos h4]

/-- Witness input for C10: a body and one dot candidate, no disc
candidate. -/
def c10WitList : List RegionInfo :=
  [ mkReg 0 45000 0 0 200 300 (Rat.divInt 67 100) (Rat.divInt 1 2) (Rat.divInt 9 10)
      (Rat.divInt 3 4) 150,
    mkReg 1 80 100 140 10 10 1 (Rat.divInt 88 100) (Rat.divInt 9 10) (Rat.divInt 8 10) 145 ]

/-- Witness for C10 at the concrete input. -/
theorem claim_C10_witness :
    (∀ e ∈ detect_all_contours c10WitList, e.type ≠ RegionType.circle_control) ∧
    ∀ d ∈ dotCandidates c10WitList,
      (⟨d, RegionType.small_dot⟩ : ClassifiedRegion) ∈ detect_all_contours c10WitList :=
  claim_C10_dots_without_control c10WitList (by decide) (by decide) (by decide)

/-- Rendering shape class returned by `classify_shape`: 'circle', 'cross',
'rectangle', 'triangle', 'line', 'complex'. -/
inductive ShapeClass where
  | circle
  | cross
  | rectangle
  | triangle
  | line
  | complex
deriving DecidableEq, Repr

/-- The `extent_calc` recomputation in rule 5 of `classify_shape` (lines
648-651): re-measured contour area over bounding-rectangle area, guarded
against a zero rectangle. -/
def extentCalc (c : RegionInfo) : ℚ :=
  if 0 < c.w * c.h then qdiv c.shapeArea ((c.w * c.h : ℕ) : ℚ) else 0

/-- The `defects is not None and len(defects) >= 4` test of rule 7 (line
667); `none` stands for `cv2.convexityDefects` raising or returning
`None`. -/
def defectsGE4 (d : Option ℕ) : Bool :=
  match d with
  | none => false
  | some k => decide (4 ≤ k)

/-- `classify_shape` (image_processor.py lines 606-678): the ordered
first-match-wins cascade assigning a shape class from the region's role and
descriptors.  Rule 3 (line) falls through when the extent sub-test fails;
rule 7 (cross) is guarded by `len(hull) > 3 and len(contour) > 10` before
the convexity defects are computed. -/
def classify_shape (t : RegionType) (c : RegionInfo) : ShapeClass :=
  if decide (t = RegionType.body) then ShapeClass.rectangle
  else if decide (Rat.divInt 85 100 < c.circularity) then ShapeClass.circle
  else if (decide ((3 : ℚ) < c.aspectR) || decide (c.aspectR < Rat.divInt 33 100)) &&
      decide (Rat.divInt 1 2 < c.extent) then ShapeClass.line
  else if decide (c.approxVerts = 3) then ShapeClass.triangle
  else if decide (c.approxVerts = 4) && decide (Rat.divInt 75 100 < extentCalc c) then
    ShapeClass.rectangle
  else if decide (Rat.divInt 6 10 < c.circularity) &&
      decide (c.circularity < Rat.divInt 85 100) &&
      decide (Rat.divInt 70 100 < c.extent) && decide (Rat.divInt 7 10 < c.aspectR) &&
      decide (c.aspectR < Rat.divInt 14 10) then ShapeClass.rectangle
  else if decide (3 < c.hullSize) && decide (10 < c.contourLen) && defectsGE4 c.defects &&
      decide (Rat.divInt 7 10 < c.aspectR) && decide (c.aspectR < Rat.divInt 13 10) &&
      decide (Rat.divInt 1 2 < c.convexity) && decide (c.convexity < Rat.divInt 85 100) then
    ShapeClass.cross
  else ShapeClass.complex

/-- One rule of the shape-inference decision list: a predicate over the
region's role and descriptors, and the class returned when it is the first
rule to match (spec §4.4, §9). -/
def ShapeRule : Type := (RegionType → RegionInfo → Bool) × ShapeClass

/-- First-match-wins evaluation of an ordered decision list, with fallback
class `complex`. -/
def firstMatch (rules : List ShapeRule) (t : RegionType) (c : RegionInfo) : ShapeClass :=
  match rules with
  | [] => ShapeClass.complex
  | r :: rs => if r.1 t c then r.2 else firstMatch rs t c

/-- The decision list exactly as claim C4 states it: the cross rule fires on
any region with at least 4 convexity defects, near-unit aspect ratio and
moderate convexity, with no guard on hull or contour point counts. -/
def shapeRulesClaimed : List ShapeRule :=
  [ (fun t _ => decide (t = RegionType.body), ShapeClass.rectangle),
    (fun _ c => decide (Rat.divInt 85 100 < c.circularity), ShapeClass.circle),
    (fun _ c => (decide ((3 : ℚ) < c.aspectR) || decide (c.aspectR < Rat.divInt 33 100)) &&
        decide (Rat.divInt 1 2 < c.extent), ShapeClass.line),
    (fun _ c => decide (c.approxVerts = 3), ShapeClass.triangle),
    (fun _ c => decide (c.approxVerts = 4) && decide (Rat.divInt 75 100 < extentCalc c),
      ShapeClass.rectangle),
    (fun _ c => decide (Rat.divInt 6 10 < c.circularity) &&
        decide (c.circularity < Rat.divInt 85 100) &&
        decide (Rat.divInt 70 100 < c.extent) && decide (Rat.divInt 7 10 < c.aspectR) &&
        decide (c.aspectR < Rat.divInt 14 10), ShapeClass.rectangle),
    (fun _ c => defectsGE4 c.defects &&
        decide (Rat.divInt 7 10 < c.aspectR) && decide (c.aspectR < Rat.divInt 13 10) &&
        decide (Rat.divInt 1 2 < c.convexity) && decide (c.convexity < Rat.divInt 85 100),
      ShapeClass.cross) ]

/-- The decision list with the cross rule amended to carry the hull-size and
contour-length guards that the source applies before computing convexity
defects. -/
def shapeRulesAmended : List ShapeRule :=
  [ (fun t _ => decide (t = RegionType.body), ShapeClass.rectangle),
    (fun _ c => decide (Rat.divInt 85 100 < c.circularity), ShapeClass.circle),
    (fun _ c => (decide ((3 : ℚ) < c.aspectR) || decide (c.aspectR < Rat.divInt 33 100)) &&
        decide (Rat.divInt 1 2 < c.extent), ShapeClass.line),
    (fun _ c => decide (c.approxVerts = 3), ShapeClass.triangle),
    (fun _ c => decide (c.approxVerts = 4) && decide (Rat.divInt 75 100 < extentCalc c),
      ShapeClass.rectangle),
    (fun _ c => decide (Rat.divInt 6 10 < c.circularity) &&
        decide (c.circularity < Rat.divInt 85 100) &&
        decide (Rat.divInt 70 100 < c.extent) && decide (Rat.divInt 7 10 < c.aspectR) &&
        decide (c.aspectR < Rat.divInt 14 10), ShapeClass.rectangle),
    (fun _ c => decide (3 < c.hullSize) && decide (10 < c.contourLen) && defectsGE4 c.defects &&
        decide (Rat.divInt 7 10 < c.aspectR) && decide (c.aspectR < Rat.divInt 13 10) &&
        decide (Rat.divInt 1 2 < c.convexity) && decide (c.convexity < Rat.divInt 85 100),
      ShapeClass.cross) ]

/-- Counterexample region for C4: a 10-point contour with hull size 4 and 4
convexity defects, unit aspect ratio and convexity 0.7, failing every
earlier rule.  The claimed cross rule fires on it, but the source skips the
defect analysis because the contour has no more than 10 points and returns
'complex'. -/
def c4CexReg : RegionInfo :=
  { contourId := 5, area := 300, x := 50, y := 50, w := 20, h := 20,
    aspectR := 1, extent := Rat.divInt 6 10, circularity := Rat.divInt 3 10,
    convexity := Rat.divInt 7 10, centerY := 60, approxVerts := 6,
    shapeArea := 300, hullSize := 4, contourLen := 10, defects := some 4 }

/-- C4 as stated is false: at `c4CexReg` the source's cascade returns
'complex' while the claimed decision list returns 'cross', because the claim
omits the `len(hull) > 3 and len(contour) > 10` guard of the cross rule. -/
theorem claim_C4_counterexample :
    classify_shape RegionType.button c4CexReg = ShapeClass.complex ∧
    firstMatch shapeRulesClaimed RegionType.button c4CexReg = ShapeClass.cross ∧
    classify_shape RegionType.button c4CexReg ≠
      firstMatch shapeRulesClaimed RegionType.button c4CexReg := by
  decide

/-- C4 amended: `classify_shape` is the first-match-wins evaluation of the
fixed-order decision list of §4.4 with the cross rule guarded by hull size
> 3 and contour length > 10 (and a successfully computed defect count). -/
theorem claim_C4_decision_list (t : RegionType) (c : RegionInfo) :
    classify_shape t c = firstMatch shapeRulesAmended t c := rfl

/-- The four corners of a bounding box. -/
inductive Corner where
  | topLeft
  | topRight
  | bottomLeft
  | bottomRight
deriving DecidableEq, Repr

/-- A corner window, `(x1, y1, x2, y2)` in the source (lines 720-725). -/
structure Window where
  x1 : ℕ
  y1 : ℕ
  x2 : ℕ
  y2 : ℕ
deriving DecidableEq, Repr

/-- The corner windows of side `corner_size = min(w//6, h//6)` anchored at
the four corners of the bounding box (lines 719-725). -/
def cornerWindow (x y w h : ℕ) : Corner → Window :=
  let cs := min (w / 6) (h / 6)
  fun k =>
    match k with
    | Corner.topLeft => ⟨x, y, x + cs, y + cs⟩
    | Corner.topRight => ⟨x + w - cs, y, x + w, y + cs⟩
    | Corner.bottomLeft => ⟨x, y + h - cs, x + cs, y + h⟩
    | Corner.bottomRight => ⟨x + w - cs, y + h - cs, x + w, y + h⟩

/-- The contour points falling inside a window, bounds inclusive
(lines 730-735). -/
def cornerPoints (contour : List (ℤ × ℤ)) (win : Window) : List (ℤ × ℤ) :=
  contour.filter fun p =>
    decide ((win.x1 : ℤ) ≤ p.1) && decide (p.1 ≤ (win.x2 : ℤ)) &&
      decide ((win.y1 : ℤ) ≤ p.2) && decide (p.2 ≤ (win.y2 : ℤ))

/-- The exact corner coordinate the distances are measured to (lines
745-746): `x1` for a left corner else `x2`, `y1` for a top corner else
`y2`. -/
def cornerCoord (win : Window) : Corner → ℕ × ℕ
  | Corner.topLeft => (win.x1, win.y1)
  | Corner.topRight => (win.x2, win.y1)
  | Corner.bottomLeft => (win.x1, win.y2)
  | Corner.bottomRight => (win.x2, win.y2)

/-- `detect_corner_radius` (image_processor.py lines 680-783), per-corner
radii.  The Euclidean distances from the window points to the corner
coordinate are square roots, hence irrational, so the 25th percentile of the
distance list (`np.percentile(distances, 25)`, line 756) is abstracted as
the oracle `dist25`; every other step — the window construction, the
5-point threshold, the `int(min(w,h)*0.08)` fallback (line 739) and the
clamp `max(5, min(radius, min(w,h)//3))` (line 763) — is computed exactly.
When the contour has fewer than 4 points the source instead returns, for
every corner, the default `max(5, min(int(min(w,h)*0.08), 50))`
(lines 703-715).  The uniform/std-deviation summary (lines 769-783) is
outside the claims and not modelled. -/
def detect_corner_radius (c : RegionInfo) (contour : List (ℤ × ℤ))
    (dist25 : Corner → ℚ) (k : Corner) : ℤ :=
  if contour.length < 4 then
    max 5 (min (pyInt (qmul ((min c.w c.h : ℕ) : ℚ) (Rat.divInt 8 100))) 50)
  else
    let win := cornerWindow c.x c.y c.w c.h k
    let pts := cornerPoints contour win
    let radius : ℤ :=
      if pts.length < 5 then pyInt (qmul ((min c.w c.h : ℕ) : ℚ) (Rat.divInt 8 100))
      else pyInt (dist25 k)
    max 5 (min radius ((min c.w c.h / 3 : ℕ) : ℤ))

/-- Counterexample region for C5: a 13×13 bounding box.  `min(w,h)//3 = 4`,
so the claimed interval `[5, min(w,h)/3]` is empty, yet the clamp returns
5. -/
def c5CexReg : RegionInfo :=
  mkReg 0 120 0 0 13 13 1 (Rat.divInt 1 2) (Rat.divInt 9 10) (Rat.divInt 7 10) 6

/-- The counterexample contour for C5: a 4-point diamond whose vertices miss
all four corner windows, forcing the `8% of min(w,h)` fallback. -/
def c5CexContour : List (ℤ × ℤ) := [(6, 0), (12, 6), (6, 12), (0, 6)]

/-- C5 as stated is false: on a 13×13 region the returned top-left radius is
5 (the fallback `int(13*0.08) = 1` clamped from below), which exceeds the
claimed upper bound `min(w,h)/3 = 4` — and also differs from the claimed
fallback value `8% of min(w,h)`. -/
theorem claim_C5_counterexample :
    detect_corner_radius c5CexReg c5CexContour (fun _ => 0) Corner.topLeft = 5 ∧
    ¬ (detect_corner_radius c5CexReg c5CexContour (fun _ => 0) Corner.topLeft ≤
        ((min c5CexReg.w c5CexReg.h / 3 : ℕ) : ℤ)) := by
  decide

/-- C5 amended: for a contour with at least 4 points, each per-corner radius
equals `max(5, min(est, min(w,h)//3))` where `est` is the `int`-truncated
25th percentile of the corner-window distances when at least 5 window points
exist and `int(0.08*min(w,h))` otherwise; the radius always satisfies
`5 ≤ radius`, and it lies in the claimed interval `[5, min(w,h)//3]`
whenever `min(w,h) ≥ 15` (below that the lower clamp exceeds the upper
bound). -/
theorem claim_C5_corner_radius (c : RegionInfo) (contour : List (ℤ × ℤ))
    (dist25 : Corner → ℚ) (k : Corner) (h4 : 4 ≤ contour.length) :
    detect_corner_radius c contour dist25 k =
      max 5 (min
        (if (cornerPoints contour (cornerWindow c.x c.y c.w c.h k)).length < 5 then
          pyInt (qmul ((min c.w c.h : ℕ) : ℚ) (Rat.divInt 8 100))
         else pyInt (dist25 k))
        ((min c.w c.h / 3 : ℕ) : ℤ)) ∧
    5 ≤ detect_corner_radius c contour dist25 k ∧
    (15 ≤ min c.w c.h →
      detect_corner_radius c contour dist25 k ≤ ((min c.w c.h / 3 : ℕ) : ℤ)) := by
  have hno : ¬ contour.length < 4 := by omega
  unfold detect_corner_radius
  rw [if_neg hno]
  refine ⟨rfl, le_max_left _ _, fun h15 => ?_⟩
  have h5 : (5 : ℤ) ≤ ((min c.w c.h / 3 : ℕ) : ℤ) := by
    have h3 : 5 ≤ min c.w c.h / 3 := by omega
    exact_mod_cast h3
  exact max_le h5 (min_le_right _ _)

/-- Witness region for C5: a 60×60 bounding box. -/
def c5WitReg : RegionInfo :=
  mkReg 0 3000 0 0 60 60 1 (Rat.divInt 1 2) (Rat.divInt 9 10) (Rat.divInt 8 10) 30

/-- Witness contour for C5. -/
def c5WitContour : List (ℤ × ℤ) := [(0, 0), (59, 0), (59, 59), (0, 59)]

/-- Witness for C5 at the concrete input (oracle distance 7). -/
theorem claim_C5_witness :
    detect_corner_radius c5WitReg c5WitContour (fun _ => 7) Corner.topLeft =
      max 5 (min
        (if (cornerPoints c5WitContour
            (cornerWindow c5WitReg.x c5WitReg.y c5WitReg.w c5WitReg.h Corner.topLeft)).length
            < 5 then
          pyInt (qmul ((min c5WitReg.w c5WitReg.h : ℕ) : ℚ) (Rat.divInt 8 100))
         else pyInt ((fun _ => (7 : ℚ)) Corner.topLeft))
        ((min c5WitReg.w c5WitReg.h / 3 : ℕ) : ℤ)) ∧
    5 ≤ detect_corner_radius c5WitReg c5WitContour (fun _ => 7) Corner.topLeft ∧
    (15 ≤ min c5WitReg.w c5WitReg.h →
      detect_corner_radius c5WitReg c5WitContour (fun _ => 7) Corner.topLeft ≤
        ((min c5WitReg.w c5WitReg.h / 3 : ℕ) : ℤ)) :=
  claim_C5_corner_radius c5WitReg c5WitContour (fun _ => 7) Corner.topLeft (by decide)

theorem round2_zero : round2 0 = 0 := by decide

/-- The descriptor computation of `detect_all_contours` lines 432-477 for
one traced contour: from the raw measures — bounding box, float contour
area, perimeter, convex-hull area, moments `m00`/`m01` — build the stored
record.  Every derived ratio is guarded:
`aspect_ratio = w/h if h > 0 else 0` (line 433),
`extent = area/(w*h) if w*h > 0 else 0` (line 437),
`circularity = 4*pi*area/perimeter**2 if perimeter > 0 else 0` (line 441),
`convexity = area/hull_area if hull_area > 0 else 0` (line 446), and
`cy = int(m01/m00) if m00 != 0 else y + h//2` (line 450); the ratios are
stored rounded to two decimals and the area truncated to an integer (lines
466-471).  The observables for `classify_shape` are passed through. -/
def region_from_raw (i : ℕ) (x y w h : ℕ) (area perimeter hullArea m00 m01 : ℚ)
    (approxVerts hullSize contourLen : ℕ) (defects : Option ℕ) : RegionInfo :=
  { contourId := i
    area := pyInt area
    x := x
    y := y
    w := w
    h := h
    aspectR := round2 (if 0 < h then qdiv ((w : ℕ) : ℚ) ((h : ℕ) : ℚ) else 0)
    extent := round2 (if 0 < w * h then qdiv area ((w * h : ℕ) : ℚ) else 0)
    circularity := round2 (if 0 < perimeter then
      qdiv (qmul (qmul 4 npPi) area) (qmul perimeter perimeter) else 0)
    convexity := round2 (if 0 < hullArea then qdiv area hullArea else 0)
    centerY := if m00 ≠ 0 then pyInt (qdiv m01 m00) else ((y + h / 2 : ℕ) : ℤ)
    approxVerts := approxVerts
    shapeArea := area
    hullSize := hullSize
    contourLen := contourLen
    defects := defects }

/-- C9: the derived descriptors are total — each guarded ratio falls back to
0, and the centroid y to the bounding-box vertical centre `y + h//2`, when
the corresponding denominator (bounding-box height, bounding-box area,
perimeter, convex-hull area, zeroth moment) is zero, rather than dividing by
zero. -/
theorem claim_C9_degenerate_guards (i : ℕ) (x y w h : ℕ)
    (area perimeter hullArea m00 m01 : ℚ) (av hsz cln : ℕ) (df : Option ℕ) :
    (h = 0 →
      (region_from_raw i x y w h area perimeter hullArea m00 m01 av hsz cln df).aspectR = 0) ∧
    (w * h = 0 →
      (region_from_raw i x y w h area perimeter hullArea m00 m01 av hsz cln df).extent = 0) ∧
    (perimeter = 0 →
      (region_from_raw i x y w h area perimeter hullArea m00 m01 av hsz cln df).circularity
        = 0) ∧
    (hullArea = 0 →
      (region_from_raw i x y w h area perimeter hullArea m00 m01 av hsz cln df).convexity
        = 0) ∧
    (m00 = 0 →
      (region_from_raw i x y w h area perimeter hullArea m00 m01 av hsz cln df).centerY =
        ((y + h / 2 : ℕ) : ℤ)) := by
  refine ⟨?_, ?_, ?_, ?_, ?_⟩ <;> intro h0 <;>
    simp [region_from_raw, h0, round2_zero]

/-- Witness for C9 at the all-degenerate input. -/
theorem claim_C9_witness :
    (region_from_raw 0 0 0 0 0 0 0 0 0 0 0 0 0 none).aspectR = 0 ∧
    (region_from_raw 0 0 0 0 0 0 0 0 0 0 0 0 0 none).extent = 0 ∧
    (region_from_raw 0 0 0 0 0 0 0 0 0 0 0 0 0 none).circularity = 0 ∧
    (region_from_raw 0 0 0 0 0 0 0 0 0 0 0 0 0 none).convexity = 0 ∧
    (region_from_raw 0 0 0 0 0 0 0 0 0 0 0 0 0 none).centerY = ((0 + 0 / 2 : ℕ) : ℤ) := by
  have hg := claim_C9_degenerate_guards 0 0 0 0 0 0 0 0 0 0 0 0 0 none
  exact ⟨hg.1 rfl, hg.2.1 rfl, hg.2.2.1 rfl, hg.2.2.2.1 rfl, hg.2.2.2.2 rfl⟩

/-- The 20 per-edge sample offsets `int(size * (i + 0.5) / num_samples)` of
`detect_shadow` (lines 833, 851, 870, 887), computed exactly as
`size*(2*i+1) / 40` by natural division. -/
def sampleOffsets (size : ℕ) : List ℕ :=
  (List.range 20).map fun i => size * (2 * i + 1) / 40

/-- The centre-baseline brightness (lines 818-824): mean of the in-bounds
pixels among the 10 randomly drawn centre coordinates `(cx, cy)`, default
128 when none is in bounds. -/
def centerBrightness (gray : ℤ → ℤ → ℕ) (imgW imgH : ℕ) (draws : List (ℤ × ℤ)) : ℚ :=
  natMean
    (draws.filterMap fun p =>
      if 0 ≤ p.1 ∧ p.1 < (imgW : ℤ) ∧ 0 ≤ p.2 ∧ p.2 < (imgH : ℤ) then
        some (gray p.2 p.1)
      else none)
    128

/-- Top-edge inside samples (lines 830-837): pixels 10 px below the top edge
at the 20 offsets, kept when in bounds. -/
def topInnerSamples (gray : ℤ → ℤ → ℕ) (imgW imgH x y w _h : ℕ) : List ℕ :=
  (sampleOffsets w).filterMap fun o =>
    let px : ℤ := (x : ℤ) + (o : ℤ)
    let py : ℤ := (y : ℤ)
    if 0 ≤ px ∧ px < (imgW : ℤ) ∧ 0 ≤ py + 10 ∧ py + 10 < (imgH : ℤ) then
      some (gray (py + 10) px)
    else none

/-- Top-edge outside samples (lines 838-840): pixels 10 px above the top
edge. -/
def topOuterSamples (gray : ℤ → ℤ → ℕ) (imgW imgH x y w _h : ℕ) : List ℕ :=
  (sampleOffsets w).filterMap fun o =>
    let px : ℤ := (x : ℤ) + (o : ℤ)
    let py : ℤ := (y : ℤ)
    if 0 ≤ px ∧ px < (imgW : ℤ) ∧ 0 ≤ py - 10 ∧ py - 10 < (imgH : ℤ) then
      some (gray (py - 10) px)
    else none

/-- Bottom-edge inside samples (lines 848-855). -/
def bottomInnerSamples (gray : ℤ → ℤ → ℕ) (imgW imgH x y w h : ℕ) : List ℕ :=
  (sampleOffsets w).filterMap fun o =>
    let px : ℤ := (x : ℤ) + (o : ℤ)
    let py : ℤ := (y : ℤ) + (h : ℤ) - 1
    if 0 ≤ px ∧ px < (imgW : ℤ) ∧ 0 ≤ py - 10 ∧ py - 10 < (imgH : ℤ) then
      some (gray (py - 10) px)
    else none

/-- Bottom-edge outside samples (lines 856-858). -/
def bottomOuterSamples (gray : ℤ → ℤ → ℕ) (imgW imgH x y w h : ℕ) : List ℕ :=
  (sampleOffsets w).filterMap fun o =>
    let px : ℤ := (x : ℤ) + (o : ℤ)
    let py : ℤ := (y : ℤ) + (h : ℤ) - 1
    if 0 ≤ px ∧ px < (imgW : ℤ) ∧ 0 ≤ py + 10 ∧ py + 10 < (imgH : ℤ) then
      some (gray (py + 10) px)
    else none

/-- Left-edge inside samples (lines 866-873). -/
def leftInnerSamples (gray : ℤ → ℤ → ℕ) (imgW imgH x y _w h : ℕ) : List ℕ :=
  (sampleOffsets h).filterMap fun o =>
    let px : ℤ := (x : ℤ)
    let py : ℤ := (y : ℤ) + (o : ℤ)
    if 0 ≤ px + 10 ∧ px + 10 < (imgW : ℤ) ∧ 0 ≤ py ∧ py < (imgH : ℤ) then
      some (gray py (px + 10))
    else none

/-- Left-edge outside samples (lines 874-876). -/
def leftOuterSamples (gray : ℤ → ℤ → ℕ) (imgW imgH x y _w h : ℕ) : List ℕ :=
  (sampleOffsets h).filterMap fun o =>
    let px : ℤ := (x : ℤ)
    let py : ℤ := (y : ℤ) + (o : ℤ)
    if 0 ≤ px - 10 ∧ px - 10 < (imgW : ℤ) ∧ 0 ≤ py ∧ py < (imgH : ℤ) then
      some (gray py (px - 10))
    else none

/-- Right-edge inside samples (lines 884-891). -/
def rightInnerSamples (gray : ℤ → ℤ → ℕ) (imgW imgH x y w h : ℕ) : List ℕ :=
  (sampleOffsets h).filterMap fun o =>
    let px : ℤ := (x : ℤ) + (w : ℤ) - 1
    let py : ℤ := (y : ℤ) + (o : ℤ)
    if 0 ≤ px - 10 ∧ px - 10 < (imgW : ℤ) ∧ 0 ≤ py ∧ py < (imgH : ℤ) then
      some (gray py (px - 10))
    else none

/-- Right-edge outside samples (lines 892-894). -/
def rightOuterSamples (gray : ℤ → ℤ → ℕ) (imgW imgH x y w h : ℕ) : List ℕ :=
  (sampleOffsets h).filterMap fun o =>
    let px : ℤ := (x : ℤ) + (w : ℤ) - 1
    let py : ℤ := (y : ℤ) + (o : ℤ)
    if 0 ≤ px + 10 ∧ px + 10 < (imgW : ℤ) ∧ 0 ≤ py ∧ py < (imgH : ℤ) then
      some (gray py (px + 10))
    else none

/-- Per-direction inside average; falls back to the centre baseline when no
sample is in bounds (lines 842-845 etc.). -/
def topInnerAvg (gray : ℤ → ℤ → ℕ) (imgW imgH x y w h : ℕ) (draws : List (ℤ × ℤ)) : ℚ :=
  natMean (topInnerSamples gray imgW imgH x y w h) (centerBrightness gray imgW imgH draws)

/-- Top-edge outside average. -/
def topOuterAvg (gray : ℤ → ℤ → ℕ) (imgW imgH x y w h : ℕ) (draws : List (ℤ × ℤ)) : ℚ :=
  natMean (topOuterSamples gray imgW imgH x y w h) (centerBrightness gray imgW imgH draws)

/-- Bottom-edge inside average. -/
def bottomInnerAvg (gray : ℤ → ℤ → ℕ) (imgW imgH x y w h : ℕ) (draws : List (ℤ × ℤ)) : ℚ :=
  natMean (bottomInnerSamples gray imgW imgH x y w h) (centerBrightness gray imgW imgH draws)

/-- Bottom-edge outside average. -/
def bottomOuterAvg (gray : ℤ → ℤ → ℕ) (imgW imgH x y w h : ℕ) (draws : List (ℤ × ℤ)) : ℚ :=
  natMean (bottomOuterSamples gray imgW imgH x y w h) (centerBrightness gray imgW imgH draws)

/-- Left-edge inside average. -/
def leftInnerAvg (gray : ℤ → ℤ → ℕ) (imgW imgH x y w h : ℕ) (draws : List (ℤ × ℤ)) : ℚ :=
  natMean (leftInnerSamples gray imgW imgH x y w h) (centerBrightness gray imgW imgH draws)

/-- Left-edge outside average. -/
def leftOuterAvg (gray : ℤ → ℤ → ℕ) (imgW imgH x y w h : ℕ) (draws : List (ℤ × ℤ)) : ℚ :=
  natMean (leftOuterSamples gray imgW imgH x y w h) (centerBrightness gray imgW imgH draws)

/-- Right-edge inside average. -/
def rightInnerAvg (gray : ℤ → ℤ → ℕ) (imgW imgH x y w h : ℕ) (draws : List (ℤ × ℤ)) : ℚ :=
  natMean (rightInnerSamples gray imgW imgH x y w h) (centerBrightness gray imgW imgH draws)

/-- Right-edge outside average. -/
def rightOuterAvg (gray : ℤ → ℤ → ℕ) (imgW imgH x y w h : ℕ) (draws : List (ℤ × ℤ)) : ℚ :=
  natMean (rightOuterSamples gray imgW imgH x y w h) (centerBrightness gray imgW imgH draws)

/-- The inner-shadow evidence list (lines 908-912): the darkness
`center - inner_avg` of the top and bottom edges only, kept when strictly
greater than 10.  The left and right edges are deliberately excluded by the
source. -/
def innerDarknessList (gray : ℤ → ℤ → ℕ) (imgW imgH x y w h : ℕ)
    (draws : List (ℤ × ℤ)) : List ℚ :=
  [qsub (centerBrightness gray imgW imgH draws) (topInnerAvg gray imgW imgH x y w h draws),
   qsub (centerBrightness gray imgW imgH draws)
     (bottomInnerAvg gray imgW imgH x y w h draws)].filter
    fun v => decide (10 < v)

/-- The outer-shadow evidence list (lines 919-925): the darkness
`255 - outer_avg` of all four edges, kept when strictly greater than 30. -/
def outerDarknessList (gray : ℤ → ℤ → ℕ) (imgW imgH x y w h : ℕ)
    (draws : List (ℤ × ℤ)) : List ℚ :=
  [qsub 255 (topOuterAvg gray imgW imgH x y w h draws),
   qsub 255 (bottomOuterAvg gray imgW imgH x y w h draws),
   qsub 255 (leftOuterAvg gray imgW imgH x y w h draws),
   qsub 255 (rightOuterAvg gray imgW imgH x y w h draws)].filter
    fun v => decide (30 < v)

/-- The inner-shadow strength before rounding (lines 914-916):
`min(1, mean(darkness)/50)` when evidence exists, else 0. -/
def innerStrengthRaw (gray : ℤ → ℤ → ℕ) (imgW imgH x y w h : ℕ)
    (draws : List (ℤ × ℤ)) : ℚ :=
  if (innerDarknessList gray imgW imgH x y w h draws).isEmpty then 0
  else min 1 (qdiv (qmean (innerDarknessList gray imgW imgH x y w h draws)) 50)

/-- The outer-shadow strength before rounding (lines 927-929):
`min(1, mean(darkness)/100)` when evidence exists, else 0. -/
def outerStrengthRaw (gray : ℤ → ℤ → ℕ) (imgW imgH x y w h : ℕ)
    (draws : List (ℤ × ℤ)) : ℚ :=
  if (outerDarknessList gray imgW imgH x y w h draws).isEmpty then 0
  else min 1 (qdiv (qmean (outerDarknessList gray imgW imgH x y w h draws)) 100)

/-- Shadow attributes returned by `detect_shadow` (lines 934-941); the eight
per-direction averages are the `direction_info` entries. -/
structure ShadowInfo where
  hasInnerShadow : Bool
  hasOuterShadow : Bool
  innerStrength : ℚ
  outerStrength : ℚ
  blurRadius : ℤ
  topInnerAvgVal : ℚ
  topOuterAvgVal : ℚ
  bottomInnerAvgVal : ℚ
  bottomOuterAvgVal : ℚ
  leftInnerAvgVal : ℚ
  leftOuterAvgVal : ℚ
  rightInnerAvgVal : ℚ
  rightOuterAvgVal : ℚ
deriving DecidableEq, Repr

/-- `detect_shadow` (image_processor.py lines 785-941) with the default
`sample_distance = 10` and `num_samples = 20` used by the pipeline.  The 10
random centre draws of `np.random.randint` (lines 819-821) are the explicit
argument `draws`.  Strengths are returned rounded to two decimals, the blur
radius is `int(2 + max(inner, outer) * 3)` on the unrounded strengths
(line 932). -/
def detect_shadow (gray : ℤ → ℤ → ℕ) (imgW imgH x y w h : ℕ)
    (draws : List (ℤ × ℤ)) : ShadowInfo :=
  { hasInnerShadow := !(innerDarknessList gray imgW imgH x y w h draws).isEmpty
    hasOuterShadow := !(outerDarknessList gray imgW imgH x y w h draws).isEmpty
    innerStrength := round2 (innerStrengthRaw gray imgW imgH x y w h draws)
    outerStrength := round2 (outerStrengthRaw gray imgW imgH x y w h draws)
    blurRadius := pyInt (qadd 2 (qmul (max (innerStrengthRaw gray imgW imgH x y w h draws)
      (outerStrengthRaw gray imgW imgH x y w h draws)) 3))
    topInnerAvgVal := topInnerAvg gray imgW imgH x y w h draws
    topOuterAvgVal := topOuterAvg gray imgW imgH x y w h draws
    bottomInnerAvgVal := bottomInnerAvg gray imgW imgH x y w h draws
    bottomOuterAvgVal := bottomOuterAvg gray imgW imgH x y w h draws
    leftInnerAvgVal := leftInnerAvg gray imgW imgH x y w h draws
    leftOuterAvgVal := leftOuterAvg gray imgW imgH x y w h draws
    rightInnerAvgVal := rightInnerAvg gray imgW imgH x y w h draws
    rightOuterAvgVal := rightOuterAvg gray imgW imgH x y w h draws }

theorem qsum_nonneg {l : List ℚ} (h : ∀ v ∈ l, 0 ≤ v) : 0 ≤ qsum l := by
  rw [qsum_eq_sum]
  exact List.sum_nonneg h

theorem qmean_nonneg {l : List ℚ} (h : ∀ v ∈ l, 0 ≤ v) : 0 ≤ qmean l := by
  unfold qmean
  rw [qdiv_eq_div]
  exact div_nonneg (qsum_nonneg h) (by positivity)

theorem innerStrengthRaw_nonneg (gray : ℤ → ℤ → ℕ) (imgW imgH x y w h : ℕ)
    (draws : List (ℤ × ℤ)) : 0 ≤ innerStrengthRaw gray imgW imgH x y w h draws := by
  unfold innerStrengthRaw
  split_ifs with hemp
  · exact le_refl 0
  · refine le_min (by norm_num) ?_
    rw [qdiv_eq_div]
    refine div_nonneg (qmean_nonneg ?_) (by norm_num)
    intro v hv
    have := (List.mem_filter.mp hv).2
    simp only [decide_eq_true_eq] at this
    linarith

theorem outerStrengthRaw_nonneg (gray : ℤ → ℤ → ℕ) (imgW imgH x y w h : ℕ)
    (draws : List (ℤ × ℤ)) : 0 ≤ outerStrengthRaw gray imgW imgH x y w h draws := by
  unfold outerStrengthRaw
  split_ifs with hemp
  · exact le_refl 0
  · refine le_min (by norm_num) ?_
    rw [qdiv_eq_div]
    refine div_nonneg (qmean_nonneg ?_) (by norm_num)
    intro v hv
    have := (List.mem_filter.mp hv).2
    simp only [decide_eq_true_eq] at this
    linarith

theorem filter_pair_isEmpty (p : ℚ → Bool) (a b : ℚ) :
    ([a, b].filter p).isEmpty = false ↔ (p a = true ∨ p b = true) := by
  cases hpa : p a <;> cases hpb : p b <;>
    simp [List.filter_cons, List.filter_nil, hpa, hpb]

/-- C6 amended: the inner shadow flag is set exactly when the mean inside
brightness of the top edge or of the bottom edge is strictly more than 10
units darker than the centre baseline (the left/right edges never
contribute), and the returned strength is `min(1, mean darkness / 50)` of
the triggering edges, rounded to two decimals (0 when no edge triggers). -/
theorem claim_C6_inner_shadow (gray : ℤ → ℤ → ℕ) (imgW imgH x y w h : ℕ)
    (draws : List (ℤ × ℤ)) :
    ((detect_shadow gray imgW imgH x y w h draws).hasInnerShadow = true ↔
      (10 < qsub (centerBrightness gray imgW imgH draws)
          (topInnerAvg gray imgW imgH x y w h draws) ∨
        10 < qsub (centerBrightness gray imgW imgH draws)
          (bottomInnerAvg gray imgW imgH x y w h draws))) ∧
    ((detect_shadow gray imgW imgH x y w h draws).hasInnerShadow = true →
      (detect_shadow gray imgW imgH x y w h draws).innerStrength =
        round2 (min 1 (qdiv (qmean (innerDarknessList gray imgW imgH x y w h draws)) 50))) ∧
    ((detect_shadow gray imgW imgH x y w h draws).hasInnerShadow = false →
      (detect_shadow gray imgW imgH x y w h draws).innerStrength = 0) := by
  refine ⟨?_, ?_, ?_⟩
  · show (!(innerDarknessList gray imgW imgH x y w h draws).isEmpty) = true ↔ _
    rw [Bool.not_eq_true']
    unfold innerDarknessList
    rw [filter_pair_isEmpty]
    simp only [decide_eq_true_eq]
  · intro hin
    show round2 (innerStrengthRaw gray imgW imgH x y w h draws) = _
    have hemp : (innerDarknessList gray imgW imgH x y w h draws).isEmpty = false := by
      have : (!(innerDarknessList gray imgW imgH x y w h draws).isEmpty) = true := hin
      rwa [Bool.not_eq_true'] at this
    unfold innerStrengthRaw
    rw [if_neg (by simp [hemp])]
  · intro hnin
    show round2 (innerStrengthRaw gray imgW imgH x y w h draws) = 0
    have hemp : (innerDarknessList gray imgW imgH x y w h draws).isEmpty = true := by
      have : (!(innerDarknessList gray imgW imgH x y w h draws).isEmpty) = false := hnin
      rwa [Bool.not_eq_false'] at this
    unfold innerStrengthRaw
    rw [if_pos (by simp [hemp])]
    exact round2_zero

/-- C7 amended: the returned blur radius is `2 + 3 * max(inner, outer)`
truncated to an integer (the value is nonnegative, so `int(...)` is the
floor), computed on the unrounded strengths — not rounded to the nearest
integer. -/
theorem claim_C7_blur_radius (gray : ℤ → ℤ → ℕ) (imgW imgH x y w h : ℕ)
    (draws : List (ℤ × ℤ)) :
    (detect_shadow gray imgW imgH x y w h draws).blurRadius =
      ⌊qadd 2 (qmul (max (innerStrengthRaw gray imgW imgH x y w h draws)
        (outerStrengthRaw gray imgW imgH x y w h draws)) 3)⌋ := by
  have h0 : 0 ≤ qadd 2 (qmul (max (innerStrengthRaw gray imgW imgH x y w h draws)
      (outerStrengthRaw gray imgW imgH x y w h draws)) 3) := by
    rw [qadd_eq_add, qmul_eq_mul]
    have hi := innerStrengthRaw_nonneg gray imgW imgH x y w h draws
    have hmax : 0 ≤ max (innerStrengthRaw gray imgW imgH x y w h draws)
        (outerStrengthRaw gray imgW imgH x y w h draws) :=
      le_trans hi (le_max_left _ _)
    nlinarith
  simp only [detect_shadow]
  unfold pyInt
  rw [if_pos h0]

/-- Counterexample image for C6: brightness 110 everywhere except row 30
(the top-edge inside sample row for the box at (20,20,100,100)), which is
100 — exactly 10 units darker than the centre. -/
def gray6 : ℤ → ℤ → ℕ := fun r _ => if r = 30 then 100 else 110

/-- A valid draw sequence for the centre baseline of a box at
(20,20,100,100): ten times the pixel (50,50), inside the `randint` ranges
`[45, 95) × [45, 95)`. -/
def centerDraws5050 : List (ℤ × ℤ) := List.replicate 10 (50, 50)

/-- C6 as stated is false: at `gray6` the top edge is exactly 10 units
darker than the centre baseline — "at least 10 units darker" holds — yet
the source requires strictly more than 10 and reports no inner shadow. -/
theorem claim_C6_counterexample :
    (detect_shadow gray6 200 200 20 20 100 100 centerDraws5050).hasInnerShadow = false ∧
    qsub (centerBrightness gray6 200 200 centerDraws5050)
      (topInnerAvg gray6 200 200 20 20 100 100 centerDraws5050) = 10 := by
  decide

/-- Counterexample image for C7: top inside row 30 at brightness 75 (25
darker than the centre 100), all outside sample rows/columns at 255 (no
outer shadow). -/
def gray7 : ℤ → ℤ → ℕ := fun r c =>
  if r = 30 then 75
  else if r = 10 ∨ r = 129 ∨ c = 10 ∨ c = 129 then 255
  else 100

/-- C7 as stated is false: at `gray7` the strengths are 0.5 and 0, so
`2 + 3 * max = 3.5`; the source truncates to 3 while rounding to the
nearest integer would give 4. -/
theorem claim_C7_counterexample :
    (detect_shadow gray7 200 200 20 20 100 100 centerDraws5050).blurRadius = 3 ∧
    (detect_shadow gray7 200 200 20 20 100 100 centerDraws5050).innerStrength =
      Rat.divInt 1 2 ∧
    (detect_shadow gray7 200 200 20 20 100 100 centerDraws5050).outerStrength = 0 ∧
    pyRound (qadd 2 (qmul
      (max (detect_shadow gray7 200 200 20 20 100 100 centerDraws5050).innerStrength
        (detect_shadow gray7 200 200 20 20 100 100 centerDraws5050).outerStrength) 3)) = 4 := by
  decide

/-- A fully annotated region: role, shape class, and the shadow attributes
computed for roles 'button', 'body' and 'circle_control'. -/
structure FullRegion where
  info : RegionInfo
  type : RegionType
  shape : ShapeClass
  shadow : Option ShadowInfo
deriving DecidableEq, Repr

/-- The annotation step of `detect_all_contours` for one region (lines
589-601): shape for every region, shadow only for the roles 'button',
'body' and 'circle_control'. -/
def annotateRegion (gray : ℤ → ℤ → ℕ) (imgW imgH : ℕ) (draws : List (ℤ × ℤ))
    (r : ClassifiedRegion) : FullRegion :=
  { info := r.info
    type := r.type
    shape := classify_shape r.type r.info
    shadow :=
      if r.type = RegionType.button ∨ r.type = RegionType.body ∨
          r.type = RegionType.circle_control then
        some (detect_shadow gray imgW imgH r.info.x r.info.y r.info.w r.info.h draws)
      else none }

/-- The annotation loop: the i-th region of the classified list is annotated
with the draw sequence `draws i` (each `detect_shadow` call consumes 10
fresh `np.random.randint` draws). -/
def annotateAll (gray : ℤ → ℤ → ℕ) (imgW imgH : ℕ) (draws : ℕ → List (ℤ × ℤ)) :
    ℕ → List ClassifiedRegion → List FullRegion
  | _, [] => []
  | i, r :: rs =>
      annotateRegion gray imgW imgH (draws i) r ::
        annotateAll gray imgW imgH draws (i + 1) rs

/-- The full `detect_all_contours` output (lines 379-604): classification
followed by shape and shadow annotation.  `draws i` is the centre-sample
draw sequence consumed by the shadow detection of the i-th returned
region. -/
def detect_all_contours_full (l : List RegionInfo) (gray : ℤ → ℤ → ℕ) (imgW imgH : ℕ)
    (draws : ℕ → List (ℤ × ℤ)) : List FullRegion :=
  annotateAll gray imgW imgH draws 0 (detect_all_contours l)

/-- The draw-independent projection of a fully annotated region. -/
def roleShape (r : FullRegion) : RegionInfo × RegionType × ShapeClass :=
  (r.info, r.type, r.shape)

/-- Counterexample region list for C8: a single body contour at
(20,20,100,100). -/
def c8List : List RegionInfo :=
  [mkReg 0 10000 20 20 100 100 1 (Rat.divInt 1 2) (Rat.divInt 9 10) (Rat.divInt 3 4) 70]

/-- Counterexample image for C8: brightness 200 everywhere except the single
pixel (60,60), which is 250. -/
def gray8 : ℤ → ℤ → ℕ := fun r c => if r = 60 ∧ c = 60 then 250 else 200

/-- A second valid draw sequence: ten times the pixel (60,60). -/
def centerDraws6060 : List (ℤ × ℤ) := List.replicate 10 (60, 60)

/-- C8 as stated is false: two runs on the identical image differ when their
`np.random.randint` centre draws differ — both draw sequences below are
inside the sampling ranges `[45, 95) × [45, 95)` of the body box, yet one
yields an inner shadow and the other does not. -/
theorem claim_C8_counterexample :
    ((centerDraws5050 ++ centerDraws6060).all fun p =>
      decide (45 ≤ p.1) && decide (p.1 < 95) && decide (45 ≤ p.2) && decide (p.2 < 95)) =
        true ∧
    detect_all_contours_full c8List gray8 200 200 (fun _ => centerDraws5050) ≠
      detect_all_contours_full c8List gray8 200 200 (fun _ => centerDraws6060) := by
  decide

/-- C8 amended: the classification and shape stages are deterministic — the
role and shape-class assignments (and the region order and geometry) of two
runs on the identical image agree for any two centre-draw sequences; only
the shadow attributes depend on the random draws. -/
theorem claim_C8_determinism (l : List RegionInfo) (gray : ℤ → ℤ → ℕ) (imgW imgH : ℕ)
    (d1 d2 : ℕ → List (ℤ × ℤ)) :
    (detect_all_contours_full l gray imgW imgH d1).map roleShape =
      (detect_all_contours_full l gray imgW imgH d2).map roleShape := by
  unfold detect_all_contours_full
  generalize detect_all_contours l = base
  have hgen : ∀ (cs : List ClassifiedRegion) (i j : ℕ),
      (annotateAll gray imgW imgH d1 i cs).map roleShape =
        (annotateAll gray imgW imgH d2 j cs).map roleShape := by
    intro cs
    induction cs with
    | nil => intro i j; rfl
    | cons r rs ih =>
        intro i j
        unfold annotateAll
        rw [List.map_cons, List.map_cons, ih (i + 1) (j + 1)]
        simp only [annotateRegion, roleShape]
  exact hgen base 0 0
